import Mathlib

/-!
Verification of the realtime playground server of the KeepMemories
repository (`src/server.js`, socket.io section, lines 611-1032).

The in-memory JS `Map`s (`playgroundConnections`, `privateRooms`,
`pendingInvites`) are embedded as association lists with JS-Map
semantics (insertion order preserved; `set` replaces in place or
appends; `delete` removes the entry).  Each socket event handler is a
pure function from server state (plus the per-socket closure values
and the current `Date.now()` clock) to a new state together with the
list of emitted socket messages.  Machine floats are modelled over
`Int` coordinates; the comparison `Math.sqrt(d) <= 100` is embedded as
`d <= 100^2`, which is justified by the lemma `sqrt_le_iff_sq_le`
below, and `Math.round(Math.sqrt d)` is embedded as `roundSqrt`,
justified by `roundSqrt_eq_round_sqrt`.
-/

namespace Playground

/-! Trace A: three nearby players; A invites both B and C; both accept.
No handler consults `currentRoom`, so A ends up a member of two rooms. -/

/-! Trace B: A invites and accepts a chat with itself (nothing in the
handlers rules out `targetId === oderId`), yielding a room whose two
members are equal; A then opens a second room with B. -/

/-! Trace C: mutual invites A→B and B→A; both get accepted within the
same millisecond (`dt = 0` throughout), so the second `generateRoomId`
call returns the id already used by the first room. -/

/-- JS `Map.get`: value of the first entry with the given key. -/
def mget {α : Type} : List (String × α) → String → Option α
  | [], _ => none
  | p :: rest, k => if p.1 = k then some p.2 else mget rest k

/-- JS `Map.set`: replace the entry with the given key in place, or append. -/
def mset {α : Type} : List (String × α) → String → α → List (String × α)
  | [], k, v => [(k, v)]
  | p :: rest, k, v => if p.1 = k then (k, v) :: rest else p :: mset rest k v

/-- JS `Map.delete`: remove the entry with the given key. -/
def mdel {α : Type} : List (String × α) → String → List (String × α)
  | [], _ => []
  | p :: rest, k => if p.1 = k then mdel rest k else p :: mdel rest k

/-- Player data stored in `playgroundConnections` (server.js 709-720). -/
structure PlayerData where
  socketId : String
  oderId : String
  username : String
  gender : String
  color : String
  x : Int
  y : Int
  direction : String
  isMoving : Bool
  currentRoom : Option String
  deriving Repr, DecidableEq

/-- A private chat message as stored and relayed (server.js 927-934). -/
structure MsgData where
  roomId : String
  fromId : String
  fromUsername : String
  fromColor : String
  message : String
  timestamp : Nat
  deriving Repr, DecidableEq

/-- A private room stored in `privateRooms` (server.js 841-845). -/
structure Room where
  members : List String
  messages : List MsgData
  createdAt : Nat
  deriving Repr, DecidableEq

/-- A pending invite stored in `pendingInvites` (server.js 796-802). -/
structure Invite where
  fromId : String
  toId : String
  fromUsername : String
  fromColor : String
  timestamp : Nat
  deriving Repr, DecidableEq

/-- The three process-wide maps (server.js 41-47). -/
structure ServerState where
  conns : List (String × PlayerData)
  rooms : List (String × Room)
  invites : List (String × Invite)
  deriving Repr, DecidableEq

/-- Per-socket closure values captured at connection time: `socket.oderId`,
`socket.id`, `user.username` from the db lookup, and the spawn `color`
variable (server.js 692-706). -/
structure Ctx where
  oderId : String
  socketId : String
  username : String
  color : String
  deriving Repr, DecidableEq

/-- Entry of the list built by `getNearbyPlayers` (server.js 662-666). -/
structure NearbyEntry where
  oderId : String
  username : String
  distance : Nat
  deriving Repr, DecidableEq

/-- Projection built by `getAllPlayersData` (server.js 631-640). -/
structure PublicPlayer where
  oderId : String
  username : String
  gender : String
  color : String
  x : Int
  y : Int
  direction : String
  isMoving : Bool
  deriving Repr, DecidableEq

/-- JS string-valued `a || b`: `b` when `a` is absent or the empty string. -/
def jsOr : Option String → String → String
  | none, b => b
  | some a, b => if a = "" then b else a

/-- server.js 50: `PROXIMITY_RADIUS = 100`. -/
def PROXIMITY_RADIUS : Int := 100

/-- Squared Euclidean distance between two stored player positions.  The
source helper `getDistance` (server.js 646-650) returns
`Math.sqrt(dx*dx + dy*dy)`; every use either compares it against
`PROXIMITY_RADIUS` (embedded as comparing this square against
`PROXIMITY_RADIUS ^ 2`, see `sqrt_le_iff_sq_le`) or rounds it (embedded
as `roundSqrt`, see `roundSqrt_eq_round_sqrt`). -/
def getDistanceSq (p q : PlayerData) : Int :=
  (p.x - q.x) ^ 2 + (p.y - q.y) ^ 2

/-- Nearest integer to the square root of `n` (ties round up): the value of
JS `Math.round(Math.sqrt n)` on an exact nonnegative integer `n`. -/
def roundSqrt (n : Nat) : Nat :=
  let k := Nat.sqrt n
  if 4 * k * k + 4 * k + 1 ≤ 4 * n then k + 1 else k

/-- server.js 628-643, `getAllPlayersData`. -/
def getAllPlayersData (conns : List (String × PlayerData)) : List PublicPlayer :=
  conns.map fun p =>
    { oderId := p.2.oderId, username := p.2.username, gender := p.2.gender,
      color := jsOr (some p.2.color) "#00ff88", x := p.2.x, y := p.2.y,
      direction := jsOr (some p.2.direction) "down", isMoving := false }

/-- server.js 653-671, `getNearbyPlayers`: scan all connections, keep the
other players within `PROXIMITY_RADIUS`, reporting the rounded distance. -/
def getNearbyPlayers (conns : List (String × PlayerData)) (oderId : String) :
    List NearbyEntry :=
  match mget conns oderId with
  | none => []
  | some player =>
    (conns.filter fun p =>
        p.1 != oderId && decide (getDistanceSq player p.2 ≤ PROXIMITY_RADIUS ^ 2)).map
      fun p =>
        { oderId := p.2.oderId, username := p.2.username,
          distance := roundSqrt (getDistanceSq player p.2).toNat }

/-- Decimal numeral of a natural number: the JS rendering of `Date.now()`
inside a template literal. -/
def natStr (n : Nat) : String :=
  if n = 0 then "0" else ⟨((Nat.digits 10 n).map Nat.digitChar).reverse⟩

/-- Strict comparison used by the JS default `Array.prototype.sort`:
lexicographic by character code. -/
def jsStrLtb : List Char → List Char → Bool
  | [], [] => false
  | [], _ :: _ => true
  | _ :: _, [] => false
  | c :: cs, d :: ds =>
    if c.toNat < d.toNat then true
    else if d.toNat < c.toNat then false
    else jsStrLtb cs ds

/-- Non-strict form of `jsStrLtb`. -/
def jsStrLe (a b : String) : Bool := ! jsStrLtb b.data a.data

/-- server.js 674-677, `generateRoomId`: sort the two ids (JS default
lexicographic sort) and append the current time. -/
def generateRoomId (oderId1 oderId2 : String) (now : Nat) : String :=
  let sorted0 := if jsStrLe oderId1 oderId2 then oderId1 else oderId2
  let sorted1 := if jsStrLe oderId1 oderId2 then oderId2 else oderId1
  "private_" ++ sorted0 ++ "_" ++ sorted1 ++ "_" ++ natStr now

/-- server.js 680-687, `findExistingRoom`: first room whose member list
contains both players. -/
def findExistingRoom (rooms : List (String × Room)) (oderId1 oderId2 : String) :
    Option String :=
  (rooms.find? fun p => p.2.members.contains oderId1 && p.2.members.contains oderId2).map
    (·.1)

/-- Server-to-client events (the `emit` payloads of server.js 727-1028). -/
inductive SEvent where
  | init (oderId : String) (players : List PublicPlayer)
  | playerJoined (player : PlayerData) (message : String)
  | playerMoved (oderId : String) (x y : Int) (direction : String) (isMoving : Bool)
  | nearbyPlayers (nearby : List NearbyEntry)
  | chatInviteReceived (fromId fromUsername fromColor : String)
  | chatInviteSent (toId toUsername : String)
  | chatInviteDeclined (byId byUsername : String)
  | chatRoomJoined (roomId partnerId partnerUsername partnerColor : String)
  | privateMessageReceived (msg : MsgData)
  | chatRoomClosed (roomId reason : String)
  | playerLeft (oderId username message : String)
  | error (message : String)
  deriving Repr, DecidableEq

/-- Delivery target of an emitted event: a single socket (`socket.emit` or
`io.to(socketId)`), a socket.io room channel (`io.to(roomId)`), or the
global playground channel minus the sender (`socket.to('playground:global')`). -/
inductive Target where
  | sock (socketId : String)
  | chan (roomId : String)
  | globalExcept (socketId : String)
  deriving Repr, DecidableEq

/-- One emitted event with its delivery target. -/
abbrev Emit := Target × SEvent

/-- server.js 692-737: the connection handler for a user present in the db.
The random spawn position and palette color are parameters (`ctx.color` is
the `color` variable captured by the closures). -/
def connectH (s : ServerState) (ctx : Ctx) (gender : String) (spawnX spawnY : Int) :
    ServerState × List Emit :=
  let playerData : PlayerData :=
    { socketId := ctx.socketId, oderId := ctx.oderId, username := ctx.username,
      gender := gender, color := ctx.color, x := spawnX, y := spawnY,
      direction := "down", isMoving := false, currentRoom := none }
  let conns1 := mset s.conns ctx.oderId playerData
  ({ s with conns := conns1 },
   [(Target.sock ctx.socketId, SEvent.init ctx.oderId (getAllPlayersData conns1)),
    (Target.globalExcept ctx.socketId,
     SEvent.playerJoined playerData (ctx.username ++ " joined the playground! 🎮"))])

/-- server.js 740-765: the `playground:move` handler. -/
def moveH (s : ServerState) (ctx : Ctx) (x y : Int) (direction : String)
    (isMoving : Bool) : ServerState × List Emit :=
  let conns1 :=
    match mget s.conns ctx.oderId with
    | some c =>
        mset s.conns ctx.oderId
          { c with x := x, y := y,
                   direction := jsOr (some direction) c.direction,
                   isMoving := isMoving }
    | none => s.conns
  ({ s with conns := conns1 },
   [(Target.globalExcept ctx.socketId, SEvent.playerMoved ctx.oderId x y direction isMoving),
    (Target.sock ctx.socketId, SEvent.nearbyPlayers (getNearbyPlayers conns1 ctx.oderId))])

/-- server.js 768-817: the `playground:chatInvite` handler.  `Math.sqrt d >
100` is embedded as `100 ^ 2 < d` (see `sqrt_le_iff_sq_le`). -/
def chatInviteH (s : ServerState) (ctx : Ctx) (targetId : String) (now : Nat) :
    ServerState × List Emit :=
  if targetId = "" then (s, []) else
  match mget s.conns targetId with
  | none => (s, [(Target.sock ctx.socketId, SEvent.error "Player not found")])
  | some targetConnection =>
    match mget s.conns ctx.oderId with
    | none => (s, [])
    | some myConnection =>
      if PROXIMITY_RADIUS ^ 2 < getDistanceSq myConnection targetConnection then
        (s, [(Target.sock ctx.socketId, SEvent.error "Player is too far away to chat")])
      else
        match findExistingRoom s.rooms ctx.oderId targetId with
        | some _ =>
          (s, [(Target.sock ctx.socketId, SEvent.error "Already chatting with this player")])
        | none =>
          let inviteKey := ctx.oderId ++ "_" ++ targetId
          let invite : Invite :=
            { fromId := ctx.oderId, toId := targetId, fromUsername := ctx.username,
              fromColor := myConnection.color, timestamp := now }
          ({ s with invites := mset s.invites inviteKey invite },
           [(Target.sock targetConnection.socketId,
             SEvent.chatInviteReceived ctx.oderId ctx.username myConnection.color),
            (Target.sock ctx.socketId,
             SEvent.chatInviteSent targetId targetConnection.username)])

/-- server.js 820-882: the `playground:chatInviteAccept` handler. -/
def chatInviteAcceptH (s : ServerState) (ctx : Ctx) (fromId : String) (now : Nat) :
    ServerState × List Emit :=
  if fromId = "" then (s, []) else
  let inviteKey := fromId ++ "_" ++ ctx.oderId
  match mget s.invites inviteKey with
  | none => (s, [(Target.sock ctx.socketId, SEvent.error "Invite expired or not found")])
  | some _invite =>
    match mget s.conns fromId with
    | none =>
      ({ s with invites := mdel s.invites inviteKey },
       [(Target.sock ctx.socketId, SEvent.error "Player left the playground")])
    | some fromConnection =>
      let roomId := generateRoomId ctx.oderId fromId now
      let rooms1 := mset s.rooms roomId
        { members := [ctx.oderId, fromId], messages := [], createdAt := now }
      let myConnection := mget s.conns ctx.oderId
      let conns1 :=
        match myConnection with
        | some myC => mset s.conns ctx.oderId { myC with currentRoom := some roomId }
        | none => s.conns
      let conns2 := mset conns1 fromId { fromConnection with currentRoom := some roomId }
      ({ conns := conns2, rooms := rooms1, invites := mdel s.invites inviteKey },
       [(Target.sock ctx.socketId,
         SEvent.chatRoomJoined roomId fromId fromConnection.username fromConnection.color),
        (Target.sock fromConnection.socketId,
         SEvent.chatRoomJoined roomId ctx.oderId ctx.username
           (jsOr (myConnection.map PlayerData.color) ctx.color))])

/-- server.js 885-903: the `playground:chatInviteDecline` handler. -/
def chatInviteDeclineH (s : ServerState) (ctx : Ctx) (fromId : String) :
    ServerState × List Emit :=
  if fromId = "" then (s, []) else
  let inviteKey := fromId ++ "_" ++ ctx.oderId
  match mget s.invites inviteKey with
  | none => (s, [])
  | some _ =>
    let s1 := { s with invites := mdel s.invites inviteKey }
    match mget s.conns fromId with
    | none => (s1, [])
    | some fromConnection =>
      (s1, [(Target.sock fromConnection.socketId,
             SEvent.chatInviteDeclined ctx.oderId ctx.username)])

/-- JS `String.prototype.trim`: strip the whitespace surrounding a string. -/
def jsTrim (s : String) : String :=
  ⟨((s.data.dropWhile Char.isWhitespace).reverse.dropWhile Char.isWhitespace).reverse⟩

/-- JS `message.trim().substring(0, 200)`: trim surrounding whitespace, then
keep at most the first 200 characters. -/
def sanitizeMsg (message : String) : String :=
  ⟨(jsTrim message).data.take 200⟩

/-- server.js 906-946: the `playground:privateMessage` handler. -/
def privateMessageH (s : ServerState) (ctx : Ctx) (roomId message : String)
    (now : Nat) : ServerState × List Emit :=
  if roomId = "" ∨ message = "" then (s, []) else
  match mget s.rooms roomId with
  | none => (s, [(Target.sock ctx.socketId, SEvent.error "Chat room not found")])
  | some room =>
    if ¬ room.members.contains ctx.oderId then
      (s, [(Target.sock ctx.socketId, SEvent.error "Access denied")])
    else
      let sanitizedMessage := sanitizeMsg message
      if sanitizedMessage = "" then (s, []) else
      let myConnection := mget s.conns ctx.oderId
      let msgData : MsgData :=
        { roomId := roomId, fromId := ctx.oderId, fromUsername := ctx.username,
          fromColor := jsOr (myConnection.map PlayerData.color) "#ffffff",
          message := sanitizedMessage, timestamp := now }
      let msgs1 := room.messages ++ [msgData]
      let msgs2 := if 100 < msgs1.length then msgs1.tail else msgs1
      ({ s with rooms := mset s.rooms roomId { room with messages := msgs2 } },
       [(Target.chan roomId, SEvent.privateMessageReceived msgData)])

/-- server.js 949-988: the `playground:leaveChat` handler. -/
def leaveChatH (s : ServerState) (ctx : Ctx) (roomId : String) :
    ServerState × List Emit :=
  if roomId = "" then (s, []) else
  match mget s.rooms roomId with
  | none => (s, [])
  | some room =>
    let conns1 :=
      match mget s.conns ctx.oderId with
      | some myC => mset s.conns ctx.oderId { myC with currentRoom := none }
      | none => s.conns
    match room.members.find? (fun id => id != ctx.oderId) with
    | none => ({ conns := conns1, rooms := mdel s.rooms roomId, invites := s.invites }, [])
    | some otherMemberId =>
      match mget conns1 otherMemberId with
      | none => ({ conns := conns1, rooms := mdel s.rooms roomId, invites := s.invites }, [])
      | some otherConnection =>
        let conns2 := mset conns1 otherMemberId { otherConnection with currentRoom := none }
        ({ conns := conns2, rooms := mdel s.rooms roomId, invites := s.invites },
         [(Target.sock otherConnection.socketId,
           SEvent.chatRoomClosed roomId (ctx.username ++ " left the chat"))])

/-- server.js 991-1031: the `disconnect` handler.  Room teardown is driven
solely by the departing player's `currentRoom` field; then every pending
invite naming the player is removed, the departure is broadcast, and
finally the connection entry is deleted. -/
def disconnectH (s : ServerState) (ctx : Ctx) : ServerState × List Emit :=
  let connection := mget s.conns ctx.oderId
  let cleanup :
      List (String × PlayerData) × List (String × Room) × List Emit :=
    match connection with
    | none => (s.conns, s.rooms, [])
    | some conn =>
      match conn.currentRoom with
      | none => (s.conns, s.rooms, [])
      | some rid =>
        match mget s.rooms rid with
        | none => (s.conns, s.rooms, [])
        | some room =>
          match room.members.find? (fun id => id != ctx.oderId) with
          | none => (s.conns, mdel s.rooms rid, [])
          | some otherMemberId =>
            match mget s.conns otherMemberId with
            | none => (s.conns, mdel s.rooms rid, [])
            | some otherConnection =>
              (mset s.conns otherMemberId { otherConnection with currentRoom := none },
               mdel s.rooms rid,
               [(Target.sock otherConnection.socketId,
                 SEvent.chatRoomClosed rid (ctx.username ++ " disconnected"))])
  let invites1 := s.invites.filter
    (fun p => ¬ (p.2.fromId = ctx.oderId ∨ p.2.toId = ctx.oderId))
  ({ conns := mdel cleanup.1 ctx.oderId, rooms := cleanup.2.1, invites := invites1 },
   cleanup.2.2 ++
     [(Target.globalExcept ctx.socketId,
       SEvent.playerLeft ctx.oderId ctx.username (ctx.username ++ " left the playground"))])

/-- User ids are produced by `generateId()` (server.js 16-24): six
characters drawn from the upper-case alphanumeric alphabet. -/
def validId (s : String) : Prop :=
  s.length = 6 ∧ ∀ c ∈ s.data, c ∈ ("ABCDEFGHIJKLMNOPQRSTUVWXYZ0123456789" : String).data

instance (s : String) : Decidable (validId s) := by
  unfold validId; infer_instance

/-- Whole-system state: the three server maps, the set of live socket
closures, and the millisecond clock (`Date.now()`). -/
structure World where
  st : ServerState
  socks : List Ctx
  now : Nat
  deriving Repr, DecidableEq

/-- Fresh server: empty maps, no sockets, clock at 0. -/
def initWorld : World := ⟨⟨[], [], []⟩, [], 0⟩

def applyConnect (w : World) (ctx : Ctx) (gender : String) (sx sy : Int)
    (dt : Nat) : World :=
  ⟨(connectH w.st ctx gender sx sy).1, ctx :: w.socks, w.now + dt⟩

def applyMove (w : World) (ctx : Ctx) (x y : Int) (direction : String)
    (isMoving : Bool) (dt : Nat) : World :=
  ⟨(moveH w.st ctx x y direction isMoving).1, w.socks, w.now + dt⟩

def applyChatInvite (w : World) (ctx : Ctx) (targetId : String) (dt : Nat) : World :=
  ⟨(chatInviteH w.st ctx targetId (w.now + dt)).1, w.socks, w.now + dt⟩

def applyChatInviteAccept (w : World) (ctx : Ctx) (fromId : String) (dt : Nat) : World :=
  ⟨(chatInviteAcceptH w.st ctx fromId (w.now + dt)).1, w.socks, w.now + dt⟩

def applyChatInviteDecline (w : World) (ctx : Ctx) (fromId : String) (dt : Nat) : World :=
  ⟨(chatInviteDeclineH w.st ctx fromId).1, w.socks, w.now + dt⟩

def applyPrivateMessage (w : World) (ctx : Ctx) (roomId message : String)
    (dt : Nat) : World :=
  ⟨(privateMessageH w.st ctx roomId message (w.now + dt)).1, w.socks, w.now + dt⟩

def applyLeaveChat (w : World) (ctx : Ctx) (roomId : String) (dt : Nat) : World :=
  ⟨(leaveChatH w.st ctx roomId).1, w.socks, w.now + dt⟩

def applyDisconnect (w : World) (ctx : Ctx) (dt : Nat) : World :=
  ⟨(disconnectH w.st ctx).1,
   w.socks.filter (fun c => c.socketId ≠ ctx.socketId), w.now + dt⟩

/-- One server event.  A handler step requires a live socket with the given
closure; a connect step requires a well-formed user id and a fresh socket
id.  The clock advances by an arbitrary `dt` (possibly 0: several events
can share one millisecond). -/
inductive Step : World → World → Prop where
  | connect (w w' : World) (ctx : Ctx) (gender : String) (sx sy : Int) (dt : Nat)
      (hid : validId ctx.oderId)
      (hfresh : ∀ c ∈ w.socks, c.socketId ≠ ctx.socketId)
      (heq : w' = applyConnect w ctx gender sx sy dt) : Step w w'
  | move (w w' : World) (ctx : Ctx) (x y : Int) (direction : String)
      (isMoving : Bool) (dt : Nat) (hctx : ctx ∈ w.socks)
      (heq : w' = applyMove w ctx x y direction isMoving dt) : Step w w'
  | chatInvite (w w' : World) (ctx : Ctx) (targetId : String) (dt : Nat)
      (hctx : ctx ∈ w.socks)
      (heq : w' = applyChatInvite w ctx targetId dt) : Step w w'
  | chatInviteAccept (w w' : World) (ctx : Ctx) (fromId : String) (dt : Nat)
      (hctx : ctx ∈ w.socks)
      (heq : w' = applyChatInviteAccept w ctx fromId dt) : Step w w'
  | chatInviteDecline (w w' : World) (ctx : Ctx) (fromId : String) (dt : Nat)
      (hctx : ctx ∈ w.socks)
      (heq : w' = applyChatInviteDecline w ctx fromId dt) : Step w w'
  | privateMessage (w w' : World) (ctx : Ctx) (roomId message : String) (dt : Nat)
      (hctx : ctx ∈ w.socks)
      (heq : w' = applyPrivateMessage w ctx roomId message dt) : Step w w'
  | leaveChat (w w' : World) (ctx : Ctx) (roomId : String) (dt : Nat)
      (hctx : ctx ∈ w.socks)
      (heq : w' = applyLeaveChat w ctx roomId dt) : Step w w'
  | disconnect (w w' : World) (ctx : Ctx) (dt : Nat) (hctx : ctx ∈ w.socks)
      (heq : w' = applyDisconnect w ctx dt) : Step w w'

/-- States of the playground server reachable from a fresh start. -/
def Reachable (w : World) : Prop :=
  Relation.ReflTransGen Step initWorld w

/-- The suffix of the most recent 100 entries: the result of repeatedly
appending to a list while evicting the oldest entry beyond capacity 100. -/
def last100 {α : Type} (l : List α) : List α := l.drop (l.length - 100)

/-- Closure of a first connected player (user id from `generateId`,
  palette color, spawn at (500,500)). -/
def ctxA : Ctx := ⟨"AAAAAA", "sockA", "alice", "#00ff88"⟩

/-- Closure of a second connected player. -/
def ctxB : Ctx := ⟨"BBBBBB", "sockB", "bob", "#ff6b6b"⟩

/-- Closure of a third connected player. -/
def ctxC : Ctx := ⟨"CCCCCC", "sockC", "carol", "#4ecdc4"⟩

def wA1 : World := applyConnect initWorld ctxA "Male" 500 500 0

def wA2 : World := applyConnect wA1 ctxB "Female" 500 520 0

def wA3 : World := applyConnect wA2 ctxC "Female" 520 500 0

def wA4 : World := applyChatInvite wA3 ctxA "BBBBBB" 0

def wA5 : World := applyChatInvite wA4 ctxA "CCCCCC" 0

def wA6 : World := applyChatInviteAccept wA5 ctxB "AAAAAA" 0

def wA7 : World := applyChatInviteAccept wA6 ctxC "AAAAAA" 0

def wA8 : World := applyDisconnect wA7 ctxA 0

def wB1 : World := applyConnect initWorld ctxA "Male" 500 500 0

def wB2 : World := applyConnect wB1 ctxB "Female" 500 520 0

def wB3 : World := applyChatInvite wB2 ctxA "AAAAAA" 0

def wB4 : World := applyChatInviteAccept wB3 ctxA "AAAAAA" 0

def wB5 : World := applyChatInvite wB4 ctxA "BBBBBB" 0

def wB6 : World := applyChatInviteAccept wB5 ctxB "AAAAAA" 0

def wC1 : World := applyConnect initWorld ctxA "Male" 500 500 0

def wC2 : World := applyConnect wC1 ctxB "Female" 500 520 0

def wC3 : World := applyChatInvite wC2 ctxA "BBBBBB" 0

def wC4 : World := applyChatInvite wC3 ctxB "AAAAAA" 0

def wC5 : World := applyChatInviteAccept wC4 ctxB "AAAAAA" 0

def wC6 : World := applyChatInviteAccept wC5 ctxA "BBBBBB" 0

/-- The `msgData` record built by the private-message handler
(server.js 927-934), for a given connection map, sender closure, room,
raw text and clock. -/
def mkMsgData (conns : List (String × PlayerData)) (ctx : Ctx)
    (roomId message : String) (now : Nat) : MsgData :=
  { roomId := roomId, fromId := ctx.oderId, fromUsername := ctx.username,
    fromColor := jsOr ((mget conns ctx.oderId).map PlayerData.color) "#ffffff",
    message := sanitizeMsg message, timestamp := now }

/-- The bounded-history append of server.js 937-940: push the new message,
then shift the oldest out when the capacity of 100 is exceeded. -/
def capMessages (room : Room) (m : MsgData) : Room :=
  { room with messages :=
      if 100 < (room.messages ++ [m]).length then (room.messages ++ [m]).tail
      else room.messages ++ [m] }

/-- Sending a sequence of private-message events against a fixed room, one
after the other (server.js 906-946 applied repeatedly). -/
def runMessages (s : ServerState) (msgs : List (Ctx × String))
    (roomId : String) (now : Nat) : ServerState :=
  msgs.foldl (fun st cm => (privateMessageH st cm.1 roomId cm.2 now).1) s

/-- A 300-character message (300 repetitions of `a`). -/
def msg300 : String := ⟨List.replicate 300 'a'⟩

/-- The three in-order messages of the history scenario. -/
def msgs3 : List (Ctx × String) := [(ctxB, "hi"), (ctxA, "how are you"), (ctxB, "bye")]

/-- Every stored private room has a member list of length exactly two. -/
def RoomsOk (s : ServerState) : Prop :=
  ∀ p ∈ s.rooms, p.2.members.length = 2

/-- A small well-formed connection map: two players twenty units apart. -/
def connsW : List (String × PlayerData) :=
  [("AAAAAA", ⟨"sockA", "AAAAAA", "alice", "Male", "#00ff88", 500, 500, "down",
      false, none⟩),
   ("BBBBBB", ⟨"sockB", "BBBBBB", "bob", "Female", "#ff6b6b", 500, 520, "down",
      false, none⟩)]

theorem mget_mset_self {α : Type} (m : List (String × α)) (k : String) (v : α) :
    mget (mset m k v) k = some v := by
  induction m with
  | nil => simp [mget, mset]
  | cons p rest ih =>
    by_cases h : p.1 = k <;> simp [mget, mset, h, ih]

theorem mget_mset_ne {α : Type} (m : List (String × α)) {k k' : String} (v : α)
    (h : k' ≠ k) : mget (mset m k v) k' = mget m k' := by
  induction m with
  | nil => simp [mget, mset, Ne.symm h]
  | cons p rest ih =>
    by_cases hp : p.1 = k
    · simp [mget, mset, hp, Ne.symm h]
    · by_cases hp' : p.1 = k' <;> simp [mget, mset, hp, hp', h, Ne.symm h, ih]

theorem mget_mdel_self {α : Type} (m : List (String × α)) (k : String) :
    mget (mdel m k) k = none := by
  induction m with
  | nil => simp [mget, mdel]
  | cons p rest ih =>
    by_cases h : p.1 = k <;> simp [mget, mdel, h, ih]

theorem mget_mdel_ne {α : Type} (m : List (String × α)) {k k' : String}
    (h : k' ≠ k) : mget (mdel m k) k' = mget m k' := by
  induction m with
  | nil => simp [mget, mdel]
  | cons p rest ih =>
    by_cases hp : p.1 = k
    · simp [mget, mdel, hp, Ne.symm h, ih]
    · by_cases hp' : p.1 = k' <;> simp [mget, mdel, hp, hp', h, Ne.symm h, ih]

theorem mem_mset {α : Type} {m : List (String × α)} {k : String} {v : α}
    {p : String × α} (h : p ∈ mset m k v) : p = (k, v) ∨ p ∈ m := by
  induction m with
  | nil => simpa [mset] using h
  | cons q rest ih =>
    by_cases hq : q.1 = k
    · simp [mset, hq] at h
      rcases h with h | h
      · exact Or.inl h
      · exact Or.inr (List.mem_cons_of_mem _ h)
    · simp [mset, hq] at h
      rcases h with h | h
      · exact Or.inr (by simp [h])
      · rcases ih h with h' | h'
        · exact Or.inl h'
        · exact Or.inr (List.mem_cons_of_mem _ h')

theorem mem_mdel {α : Type} {m : List (String × α)} {k : String}
    {p : String × α} (h : p ∈ mdel m k) : p ∈ m := by
  induction m with
  | nil => simp [mdel] at h
  | cons q rest ih =>
    by_cases hq : q.1 = k
    · simp [mdel, hq] at h
      exact List.mem_cons_of_mem _ (ih h)
    · simp [mdel, hq] at h
      rcases h with h | h
      · simp [h]
      · exact List.mem_cons_of_mem _ (ih h)

theorem mget_mem {α : Type} {m : List (String × α)} {k : String} {v : α}
    (h : mget m k = some v) : (k, v) ∈ m := by
  induction m with
  | nil => simp [mget] at h
  | cons p rest ih =>
    by_cases hp : p.1 = k
    · simp [mget, hp] at h
      subst h
      simp [← hp]
    · simp [mget, hp] at h
      exact List.mem_cons_of_mem _ (ih h)

theorem mget_eq_of_nodup_mem {α : Type} {m : List (String × α)} {k : String}
    {v : α} (hnd : (m.map Prod.fst).Nodup) (h : (k, v) ∈ m) :
    mget m k = some v := by
  induction m with
  | nil => simp at h
  | cons p rest ih =>
    rw [List.map_cons, List.nodup_cons] at hnd
    rcases List.mem_cons.mp h with h1 | h1
    · simp [mget, ← h1]
    · have hk : p.1 ≠ k := by
        intro hek
        exact hnd.1 (by rw [hek]; exact List.mem_map_of_mem Prod.fst h1)
      simp [mget, hk]
      exact ih hnd.2 h1

theorem sqrt_le_iff_sq_le (d : ℤ) :
    Real.sqrt (d : ℝ) ≤ ((PROXIMITY_RADIUS : ℤ) : ℝ) ↔ d ≤ PROXIMITY_RADIUS ^ 2 := by
  have h100 : ((PROXIMITY_RADIUS : ℤ) : ℝ) = 100 := by norm_num [PROXIMITY_RADIUS]
  rw [h100, Real.sqrt_le_left (by norm_num)]
  rw [show (PROXIMITY_RADIUS ^ 2 : ℤ) = 10000 by norm_num [PROXIMITY_RADIUS]]
  constructor
  · intro h; exact_mod_cast (by linarith : (d : ℝ) ≤ 10000)
  · intro h; exact_mod_cast (by exact_mod_cast h : (d : ℝ) ≤ 10000)

theorem roundSqrt_eq_round_sqrt (n : ℕ) :
    (roundSqrt n : ℤ) = round (Real.sqrt n) := by
  unfold roundSqrt
  set k := Nat.sqrt n with hk
  have hk1 : (k : ℝ) ≤ Real.sqrt n := Real.nat_sqrt_le_real_sqrt
  have hk2 : Real.sqrt n < (k : ℝ) + 1 := by
    have := @Real.real_sqrt_lt_nat_sqrt_succ n
    rw [← hk] at this
    exact_mod_cast this
  rw [round_eq]
  by_cases hc : 4 * k * k + 4 * k + 1 ≤ 4 * n
  · simp only [if_pos hc]
    symm
    rw [Int.floor_eq_iff]
    have h1 : ((k : ℝ) + 1 / 2) ^ 2 ≤ (n : ℝ) := by
      have hcast : ((4 * k * k + 4 * k + 1 : ℕ) : ℝ) ≤ ((4 * n : ℕ) : ℝ) := by
        exact_mod_cast hc
      push_cast at hcast
      nlinarith
    have h2 : (k : ℝ) + 1 / 2 ≤ Real.sqrt n := by
      rw [Real.le_sqrt (by positivity) (by positivity)]
      exact h1
    constructor
    · push_cast; linarith
    · push_cast; linarith
  · simp only [if_neg hc]
    symm
    rw [Int.floor_eq_iff]
    have hlt : 4 * n < 4 * k * k + 4 * k + 1 := Nat.lt_of_not_le hc
    have h1 : (n : ℝ) < ((k : ℝ) + 1 / 2) ^ 2 := by
      have hcast : ((4 * n : ℕ) : ℝ) < ((4 * k * k + 4 * k + 1 : ℕ) : ℝ) := by
        exact_mod_cast hlt
      push_cast at hcast
      nlinarith
    have h2 : Real.sqrt n < (k : ℝ) + 1 / 2 := by
      rw [Real.sqrt_lt' (by positivity)]
      exact h1
    constructor
    · push_cast; linarith
    · push_cast; linarith

theorem digitChar_injOn :
    ∀ a, a < 10 → ∀ b, b < 10 → Nat.digitChar a = Nat.digitChar b → a = b := by
  decide

theorem map_digitChar_inj (l1 : List ℕ) :
    ∀ l2 : List ℕ, (∀ x ∈ l1, x < 10) → (∀ x ∈ l2, x < 10) →
      l1.map Nat.digitChar = l2.map Nat.digitChar → l1 = l2 := by
  induction l1 with
  | nil =>
    intro l2 _ _ h
    cases l2 with
    | nil => rfl
    | cons b t2 => simp at h
  | cons a t ih =>
    intro l2 h1 h2 h
    cases l2 with
    | nil => simp at h
    | cons b t2 =>
      simp only [List.map_cons, List.cons.injEq] at h
      have hab := digitChar_injOn a (h1 a (by simp)) b (h2 b (by simp)) h.1
      have ht := ih t2 (fun x hx => h1 x (by simp [hx]))
        (fun x hx => h2 x (by simp [hx])) h.2
      rw [hab, ht]

theorem natStr_inj {m n : ℕ} (h : natStr m = natStr n) : m = n := by
  have digits_bound : ∀ p : ℕ, ∀ x ∈ Nat.digits 10 p, x < 10 := by
    intro p x hx
    exact Nat.digits_lt_base (by norm_num) hx
  have of_zero : ∀ p : ℕ, Nat.digits 10 p = [0] → p = 0 := by
    intro p hp
    have := Nat.ofDigits_digits 10 p
    rw [hp] at this
    simpa [Nat.ofDigits] using this.symm
  unfold natStr at h
  by_cases hm : m = 0 <;> by_cases hn : n = 0
  · rw [hm, hn]
  · exfalso
    rw [if_pos hm, if_neg hn] at h
    have hd : ((Nat.digits 10 n).map Nat.digitChar).reverse = ['0'] :=
      (congrArg String.data h).symm
    have hmap : (Nat.digits 10 n).map Nat.digitChar = ['0'] := by
      have := congrArg List.reverse hd
      simpa using this
    have : Nat.digits 10 n = [0] :=
      map_digitChar_inj _ [0] (digits_bound n) (by simp) (by simpa using hmap)
    exact hn (of_zero n this)
  · exfalso
    rw [if_neg hm, if_pos hn] at h
    have hd : ((Nat.digits 10 m).map Nat.digitChar).reverse = ['0'] :=
      congrArg String.data h
    have hmap : (Nat.digits 10 m).map Nat.digitChar = ['0'] := by
      have := congrArg List.reverse hd
      simpa using this
    have : Nat.digits 10 m = [0] :=
      map_digitChar_inj _ [0] (digits_bound m) (by simp) (by simpa using hmap)
    exact hm (of_zero m this)
  · rw [if_neg hm, if_neg hn] at h
    have hd := congrArg String.data h
    simp only [List.reverse_inj] at hd
    have hdig : Nat.digits 10 m = Nat.digits 10 n :=
      map_digitChar_inj _ _ (digits_bound m) (digits_bound n) hd
    have := Nat.ofDigits_digits 10 m
    rw [hdig, Nat.ofDigits_digits] at this
    exact this.symm

theorem string_append_left_cancel {a b c : String} (h : a ++ b = a ++ c) :
    b = c := by
  have hd := congrArg String.data h
  simp only [String.data_append] at hd
  have hbc := List.append_cancel_left hd
  cases b; cases c
  exact congrArg String.mk hbc

theorem generateRoomId_time_inj (a b : String) {t t' : ℕ}
    (h : generateRoomId a b t = generateRoomId a b t') : t = t' := by
  unfold generateRoomId at h
  exact natStr_inj (string_append_left_cancel h)

theorem last100_of_le {α : Type} {l : List α} (h : l.length ≤ 100) :
    last100 l = l := by
  unfold last100
  rw [Nat.sub_eq_zero_of_le h, List.drop_zero]

theorem length_last100 {α : Type} (l : List α) :
    (last100 l).length = min l.length 100 := by
  simp only [last100, List.length_drop]
  omega

theorem last100_idem_append {α : Type} (X R : List α) :
    last100 (last100 X ++ R) = last100 (X ++ R) := by
  rcases le_or_lt X.length 100 with hx | hx
  · rw [last100_of_le hx]
  · unfold last100
    simp only [List.length_append, List.length_drop,
      List.drop_append_eq_append_drop, List.drop_drop]
    congr 1
    · congr 1
      omega
    · congr 1
      omega

theorem cap_eq_last100 {α : Type} (l : List α) (x : α) (h : l.length ≤ 100) :
    (if 100 < (l ++ [x]).length then (l ++ [x]).tail else l ++ [x]) =
      last100 (l ++ [x]) := by
  rcases Nat.lt_or_ge 100 (l ++ [x]).length with hlt | hge
  · rw [if_pos hlt]
    have hlen : l.length = 100 := by
      simp only [List.length_append, List.length_singleton] at hlt
      omega
    unfold last100
    rw [← List.drop_one]
    congr 1
    simp [hlen]
  · rw [if_neg (not_lt.mpr hge)]
    exact (last100_of_le hge).symm

theorem length_cap_le {α : Type} (l : List α) (x : α) (h : l.length ≤ 100) :
    (if 100 < (l ++ [x]).length then (l ++ [x]).tail else l ++ [x]).length ≤ 100 := by
  split
  · rename_i h2
    simp only [List.length_tail, List.length_append, List.length_singleton] at h2 ⊢
    omega
  · rename_i h2
    exact not_lt.mp h2

theorem step_wA6_wA7 : Step wA6 wA7 :=
  Step.chatInviteAccept _ _ ctxC "AAAAAA" 0 (by decide) rfl

theorem reach_wA6 : Reachable wA6 := by
  have s1 : Step initWorld wA1 :=
    Step.connect _ _ ctxA "Male" 500 500 0 (by decide) (by decide) rfl
  have s2 : Step wA1 wA2 :=
    Step.connect _ _ ctxB "Female" 500 520 0 (by decide) (by decide) rfl
  have s3 : Step wA2 wA3 :=
    Step.connect _ _ ctxC "Female" 520 500 0 (by decide) (by decide) rfl
  have s4 : Step wA3 wA4 := Step.chatInvite _ _ ctxA "BBBBBB" 0 (by decide) rfl
  have s5 : Step wA4 wA5 := Step.chatInvite _ _ ctxA "CCCCCC" 0 (by decide) rfl
  have s6 : Step wA5 wA6 :=
    Step.chatInviteAccept _ _ ctxB "AAAAAA" 0 (by decide) rfl
  exact .tail (.tail (.tail (.tail (.tail (.tail .refl s1) s2) s3) s4) s5) s6

theorem reach_wA7 : Reachable wA7 := reach_wA6.tail step_wA6_wA7

theorem reach_wA8 : Reachable wA8 :=
  reach_wA7.tail (Step.disconnect _ _ ctxA 0 (by decide) rfl)

theorem reach_wB6 : Reachable wB6 := by
  have s1 : Step initWorld wB1 :=
    Step.connect _ _ ctxA "Male" 500 500 0 (by decide) (by decide) rfl
  have s2 : Step wB1 wB2 :=
    Step.connect _ _ ctxB "Female" 500 520 0 (by decide) (by decide) rfl
  have s3 : Step wB2 wB3 := Step.chatInvite _ _ ctxA "AAAAAA" 0 (by decide) rfl
  have s4 : Step wB3 wB4 :=
    Step.chatInviteAccept _ _ ctxA "AAAAAA" 0 (by decide) rfl
  have s5 : Step wB4 wB5 := Step.chatInvite _ _ ctxA "BBBBBB" 0 (by decide) rfl
  have s6 : Step wB5 wB6 :=
    Step.chatInviteAccept _ _ ctxB "AAAAAA" 0 (by decide) rfl
  exact .tail (.tail (.tail (.tail (.tail (.tail .refl s1) s2) s3) s4) s5) s6

theorem reach_wC5 : Reachable wC5 := by
  have s1 : Step initWorld wC1 :=
    Step.connect _ _ ctxA "Male" 500 500 0 (by decide) (by decide) rfl
  have s2 : Step wC1 wC2 :=
    Step.connect _ _ ctxB "Female" 500 520 0 (by decide) (by decide) rfl
  have s3 : Step wC2 wC3 := Step.chatInvite _ _ ctxA "BBBBBB" 0 (by decide) rfl
  have s4 : Step wC3 wC4 := Step.chatInvite _ _ ctxB "AAAAAA" 0 (by decide) rfl
  have s5 : Step wC4 wC5 :=
    Step.chatInviteAccept _ _ ctxB "AAAAAA" 0 (by decide) rfl
  exact .tail (.tail (.tail (.tail (.tail .refl s1) s2) s3) s4) s5

theorem reach_wC6 : Reachable wC6 :=
  reach_wC5.tail (Step.chatInviteAccept _ _ ctxA "BBBBBB" 0 (by decide) rfl)

/-- Claim C1, counterexample: a reachable server state in which the single
player `AAAAAA` is simultaneously a member of two different private rooms,
refuting the claimed exclusivity invariant (neither the invite nor the
accept handler consults the player's `currentRoom`). -/
theorem player_in_two_rooms_cex :
    Reachable wA7 ∧
    mget wA7.st.rooms "private_AAAAAA_BBBBBB_0" =
      some ⟨["BBBBBB", "AAAAAA"], [], 0⟩ ∧
    mget wA7.st.rooms "private_AAAAAA_CCCCCC_0" =
      some ⟨["CCCCCC", "AAAAAA"], [], 0⟩ ∧
    "private_AAAAAA_BBBBBB_0" ≠ "private_AAAAAA_CCCCCC_0" ∧
    "AAAAAA" ∈ (["BBBBBB", "AAAAAA"] : List String) ∧
    "AAAAAA" ∈ (["CCCCCC", "AAAAAA"] : List String) :=
  ⟨reach_wA7, by decide, by decide, by decide, by decide, by decide⟩

/-- Claim C2, counterexample: a reachable state holding a private room whose
two member slots name the same player (created by a self-invite, which no
handler rules out) while that member's stored `currentRoom` is a different
room's id — refuting both the two-distinct-members conjunct and the
`currentRoom`-matches-room conjunct of the claimed invariant. -/
theorem room_shape_cex :
    Reachable wB6 ∧
    mget wB6.st.rooms "private_AAAAAA_AAAAAA_0" =
      some ⟨["AAAAAA", "AAAAAA"], [], 0⟩ ∧
    ¬ (["AAAAAA", "AAAAAA"] : List String).Nodup ∧
    (mget wB6.st.conns "AAAAAA").map PlayerData.currentRoom =
      some (some "private_AAAAAA_BBBBBB_0") ∧
    "private_AAAAAA_BBBBBB_0" ≠ "private_AAAAAA_AAAAAA_0" :=
  ⟨reach_wB6, by decide, by decide, by decide, by decide⟩

/-- Claim C6, counterexample: from the reachable two-rooms state `wA7`,
player `AAAAAA` disconnects; the handler only tears down the room named by
the player's `currentRoom`, so the other room survives with the departed
player still listed as a member after the connection entry is removed. -/
theorem disconnect_dangling_member_cex :
    Reachable wA8 ∧
    wA8 = applyDisconnect wA7 ctxA 0 ∧
    mget wA8.st.conns "AAAAAA" = none ∧
    mget wA8.st.rooms "private_AAAAAA_BBBBBB_0" =
      some ⟨["BBBBBB", "AAAAAA"], [], 0⟩ ∧
    "AAAAAA" ∈ (["BBBBBB", "AAAAAA"] : List String) :=
  ⟨reach_wA8, rfl, by decide, by decide, by decide⟩

/-- Claim C9, counterexample: two room creations in the same millisecond
(mutual invites between the same pair, both accepted at clock 0) generate
the identical room id, and the second creation silently overwrites the
first room: after the second accept the map still holds a single entry
whose contents differ from the first room. -/
theorem roomId_collision_cex :
    Reachable wC6 ∧
    wC6 = applyChatInviteAccept wC5 ctxA "BBBBBB" 0 ∧
    mget wC5.st.rooms "private_AAAAAA_BBBBBB_0" =
      some ⟨["BBBBBB", "AAAAAA"], [], 0⟩ ∧
    (chatInviteAcceptH wC5.st ctxA "BBBBBB" 0).2 =
      [(Target.sock "sockA",
        SEvent.chatRoomJoined "private_AAAAAA_BBBBBB_0" "BBBBBB" "bob" "#ff6b6b"),
       (Target.sock "sockB",
        SEvent.chatRoomJoined "private_AAAAAA_BBBBBB_0" "AAAAAA" "alice" "#00ff88")] ∧
    wC6.st.rooms = [("private_AAAAAA_BBBBBB_0", ⟨["AAAAAA", "BBBBBB"], [], 0⟩)] ∧
    mget wC5.st.rooms "private_AAAAAA_BBBBBB_0" ≠
      mget wC6.st.rooms "private_AAAAAA_BBBBBB_0" :=
  ⟨reach_wC6, rfl, by decide, by decide, by decide, by decide⟩

/-- Claim C5, counterexample: a private-message event against an existing
room from a non-member whose message text is empty is dropped before the
membership check — the state is unchanged but no error event is sent to
the sender, refuting the claim that the sender always receives an error. -/
theorem nonmember_no_error_cex :
    Reachable wA6 ∧
    mget wA6.st.rooms "private_AAAAAA_BBBBBB_0" =
      some ⟨["BBBBBB", "AAAAAA"], [], 0⟩ ∧
    "CCCCCC" ∉ (["BBBBBB", "AAAAAA"] : List String) ∧
    ctxC.oderId = "CCCCCC" ∧
    privateMessageH wA6.st ctxC "private_AAAAAA_BBBBBB_0" "" 0 = (wA6.st, []) :=
  ⟨reach_wA6, by decide, by decide, rfl, by decide⟩

/-- Claim C1, amended: room exclusivity is not an invariant; the only
enforcement is at invite time — a chat-invite between two players who
already share a room leaves the entire server state unchanged and sends a
single error event, to the inviter only (whose reason depends on which
guard fires first). -/
theorem invite_rejected_when_room_exists
    (s : ServerState) (ctx : Ctx) (targetId : String) (now : Nat)
    (myC : PlayerData) (rid : String)
    (hself : mget s.conns ctx.oderId = some myC)
    (htgt : targetId ≠ "")
    (hroom : findExistingRoom s.rooms ctx.oderId targetId = some rid) :
    (chatInviteH s ctx targetId now).1 = s ∧
    ((chatInviteH s ctx targetId now).2 =
        [(Target.sock ctx.socketId, SEvent.error "Player not found")] ∨
      (chatInviteH s ctx targetId now).2 =
        [(Target.sock ctx.socketId, SEvent.error "Player is too far away to chat")] ∨
      (chatInviteH s ctx targetId now).2 =
        [(Target.sock ctx.socketId, SEvent.error "Already chatting with this player")]) := by
  unfold chatInviteH
  rw [if_neg htgt]
  cases htc : mget s.conns targetId with
  | none => exact ⟨rfl, Or.inl rfl⟩
  | some tc =>
    rw [hself]
    dsimp only
    by_cases hdist : PROXIMITY_RADIUS ^ 2 < getDistanceSq myC tc
    · rw [if_pos hdist]
      exact ⟨rfl, Or.inr (Or.inl rfl)⟩
    · rw [if_neg hdist, hroom]
      exact ⟨rfl, Or.inr (Or.inr rfl)⟩

/-- Witness for the amended claim C1 at the reachable state `wA7`, where
`AAAAAA` and `BBBBBB` already share a room. -/
theorem invite_rejected_when_room_exists_witness :
    (chatInviteH wA7.st ctxA "BBBBBB" 0).1 = wA7.st ∧
    ((chatInviteH wA7.st ctxA "BBBBBB" 0).2 =
        [(Target.sock ctxA.socketId, SEvent.error "Player not found")] ∨
      (chatInviteH wA7.st ctxA "BBBBBB" 0).2 =
        [(Target.sock ctxA.socketId, SEvent.error "Player is too far away to chat")] ∨
      (chatInviteH wA7.st ctxA "BBBBBB" 0).2 =
        [(Target.sock ctxA.socketId, SEvent.error "Already chatting with this player")]) :=
  invite_rejected_when_room_exists wA7.st ctxA "BBBBBB" 0
    ⟨"sockA", "AAAAAA", "alice", "Male", "#00ff88", 500, 500, "down", false,
      some "private_AAAAAA_CCCCCC_0"⟩
    "private_AAAAAA_BBBBBB_0" (by decide) (by decide) (by decide)

/-- Claim C9, amended: room ids do collide when the same pair creates two
rooms within one millisecond (see the counterexample), but two creations
for a given pair at different clock values never collide, because the id
ends in the decimal rendering of the creation time. -/
theorem generateRoomId_time_injective (a b : String) (t t' : Nat) (h : t ≠ t') :
    generateRoomId a b t ≠ generateRoomId a b t' :=
  fun he => h (generateRoomId_time_inj a b he)

/-- Witness for the amended claim C9: creations one millisecond apart get
distinct ids. -/
theorem generateRoomId_time_injective_witness :
    generateRoomId "AAAAAA" "BBBBBB" 0 ≠ generateRoomId "AAAAAA" "BBBBBB" 1 :=
  generateRoomId_time_injective "AAAAAA" "BBBBBB" 0 1 (by decide)

/-- Claim C10: declining an invite for which no matching pending entry
exists (absent `fromId`, or no entry under the key built from the claimed
sender and the decliner) is a complete no-op: the state — connection, room
and invite maps — is returned unchanged and no event is emitted to
anyone. -/
theorem decline_without_invite_noop (s : ServerState) (ctx : Ctx) (fromId : String)
    (h : fromId = "" ∨ mget s.invites (fromId ++ "_" ++ ctx.oderId) = none) :
    chatInviteDeclineH s ctx fromId = (s, []) := by
  unfold chatInviteDeclineH
  rcases h with h | h
  · rw [if_pos h]
  · by_cases hf : fromId = ""
    · rw [if_pos hf]
    · rw [if_neg hf]
      dsimp only
      rw [h]

/-- Witness for claim C10 at the reachable state `wA6`: declining a
never-sent invite from `CCCCCC` changes nothing and emits nothing. -/
theorem decline_without_invite_noop_witness :
    chatInviteDeclineH wA6.st ctxB "CCCCCC" = (wA6.st, []) :=
  decline_without_invite_noop wA6.st ctxB "CCCCCC" (Or.inr (by decide))

theorem capMessages_messages (room : Room) (m : MsgData)
    (h : room.messages.length ≤ 100) :
    (capMessages room m).messages = last100 (room.messages ++ [m]) :=
  cap_eq_last100 room.messages m h

theorem capMessages_members (room : Room) (m : MsgData) :
    (capMessages room m).members = room.members := rfl

theorem capMessages_len (room : Room) (m : MsgData)
    (h : room.messages.length ≤ 100) :
    (capMessages room m).messages.length ≤ 100 :=
  length_cap_le room.messages m h

theorem privateMessageH_accepted
    (s : ServerState) (ctx : Ctx) (roomId message : String) (now : Nat)
    (room : Room)
    (hrid : roomId ≠ "")
    (hroom : mget s.rooms roomId = some room)
    (hmem : ctx.oderId ∈ room.members)
    (hne : sanitizeMsg message ≠ "") :
    privateMessageH s ctx roomId message now =
      ({ s with rooms := mset s.rooms roomId
                  (capMessages room (mkMsgData s.conns ctx roomId message now)) },
       [(Target.chan roomId,
         SEvent.privateMessageReceived (mkMsgData s.conns ctx roomId message now))]) := by
  have hm : message ≠ "" := by
    intro h
    apply hne
    rw [h]
    rfl
  unfold privateMessageH
  rw [if_neg (by simp [hrid, hm]), hroom]
  dsimp only
  rw [if_neg (by simp [hmem]), if_neg hne]
  rfl

theorem privateMessageH_dropped
    (s : ServerState) (ctx : Ctx) (roomId message : String) (now : Nat)
    (room : Room)
    (hroom : mget s.rooms roomId = some room)
    (hmem : ctx.oderId ∈ room.members)
    (hsan : sanitizeMsg message = "") :
    privateMessageH s ctx roomId message now = (s, []) := by
  unfold privateMessageH
  by_cases hm : message = ""
  · rw [if_pos (Or.inr hm)]
  · by_cases hr : roomId = ""
    · rw [if_pos (Or.inl hr)]
    · rw [if_neg (by simp [hr, hm]), hroom]
      dsimp only
      rw [if_neg (by simp [hmem]), if_pos hsan]

theorem conns_privateMessageH
    (s : ServerState) (ctx : Ctx) (roomId message : String) (now : Nat) :
    (privateMessageH s ctx roomId message now).1.conns = s.conns := by
  unfold privateMessageH
  dsimp only
  repeat' split
  all_goals rfl

set_option maxRecDepth 4000 in
theorem runMessages_history (msgs : List (Ctx × String)) :
    ∀ (s : ServerState) (roomId : String) (now : Nat) (room : Room),
    roomId ≠ "" →
    mget s.rooms roomId = some room →
    room.messages.length ≤ 100 →
    (∀ cm ∈ msgs, cm.1.oderId ∈ room.members ∧ sanitizeMsg cm.2 ≠ "") →
    mget (runMessages s msgs roomId now).rooms roomId =
      some { room with messages := last100 (room.messages ++
                msgs.map (fun cm => mkMsgData s.conns cm.1 roomId cm.2 now)) } := by
  induction msgs with
  | nil =>
    intro s roomId now room hrid hroom hlen hacc
    simp only [runMessages, List.foldl_nil, List.map_nil, List.append_nil]
    rw [last100_of_le hlen]
    exact hroom
  | cons cm rest ih =>
    intro s roomId now room hrid hroom hlen hacc
    have hcm := hacc cm (by simp)
    have hstep := privateMessageH_accepted s cm.1 roomId cm.2 now room hrid hroom
      hcm.1 hcm.2
    have hrun : runMessages s (cm :: rest) roomId now =
        runMessages (privateMessageH s cm.1 roomId cm.2 now).1 rest roomId now := rfl
    rw [hrun, hstep]
    rw [ih _ roomId now _ hrid (mget_mset_self _ _ _)
      (capMessages_len _ _ hlen)
      (by
        intro dm hdm
        rw [capMessages_members]
        exact hacc dm (by simp [hdm]))]
    congr 1
    rw [capMessages_messages _ _ hlen]
    congr 1
    rw [last100_idem_append]
    simp

/-- Claim C7: an accepted private message is stored and relayed with text
equal to the input trimmed of surrounding whitespace and truncated to at
most 200 characters (and left unaltered when the trimmed text is already
within the bound); a message that is empty after trimming is silently
dropped — no state change, no relay, no error. -/
theorem privateMessage_text_spec
    (s : ServerState) (ctx : Ctx) (roomId message : String) (now : Nat)
    (room : Room)
    (hrid : roomId ≠ "")
    (hroom : mget s.rooms roomId = some room)
    (hmem : ctx.oderId ∈ room.members) :
    (sanitizeMsg message).length ≤ 200 ∧
    ((jsTrim message).length ≤ 200 → sanitizeMsg message = jsTrim message) ∧
    (sanitizeMsg message = "" →
      privateMessageH s ctx roomId message now = (s, [])) ∧
    (sanitizeMsg message ≠ "" →
      (mkMsgData s.conns ctx roomId message now).message = sanitizeMsg message ∧
      privateMessageH s ctx roomId message now =
        ({ s with rooms := mset s.rooms roomId
                      (capMessages room (mkMsgData s.conns ctx roomId message now)) },
         [(Target.chan roomId,
           SEvent.privateMessageReceived
             (mkMsgData s.conns ctx roomId message now))])) := by
  refine ⟨?_, ?_, ?_, ?_⟩
  · show ((jsTrim message).data.take 200).length ≤ 200
    rw [List.length_take]
    omega
  · intro h
    show (⟨(jsTrim message).data.take 200⟩ : String) = jsTrim message
    exact congrArg String.mk (List.take_of_length_le h)
  · intro h
    exact privateMessageH_dropped s ctx roomId message now room hroom hmem h
  · intro h
    exact ⟨rfl,
      privateMessageH_accepted s ctx roomId message now room hrid hroom hmem h⟩

set_option maxRecDepth 40000 in
/-- Witness for claim C7: sending the 300-character message `msg300` into
the reachable room of `wA6` stores and relays exactly its first 200
characters. -/
theorem privateMessage_text_spec_witness :
    sanitizeMsg msg300 = ⟨List.replicate 200 'a'⟩ ∧
    (sanitizeMsg msg300).length = 200 ∧
    privateMessageH wA6.st ctxB "private_AAAAAA_BBBBBB_0" msg300 0 =
      ({ wA6.st with rooms := mset wA6.st.rooms "private_AAAAAA_BBBBBB_0"
                        (capMessages ⟨["BBBBBB", "AAAAAA"], [], 0⟩
                          (mkMsgData wA6.st.conns ctxB "private_AAAAAA_BBBBBB_0" msg300 0)) },
       [(Target.chan "private_AAAAAA_BBBBBB_0",
         SEvent.privateMessageReceived
           (mkMsgData wA6.st.conns ctxB "private_AAAAAA_BBBBBB_0" msg300 0))]) :=
  ⟨by decide, by decide,
   ((privateMessage_text_spec wA6.st ctxB "private_AAAAAA_BBBBBB_0" msg300 0
       ⟨["BBBBBB", "AAAAAA"], [], 0⟩ (by decide) (by decide) (by decide)).2.2.2
     (by decide)).2⟩

/-- Claim C8: starting from a freshly created room, a sequence of accepted
messages leaves a history of length `min n 100` holding the most recent
messages in send order (the suffix of the full send list after dropping
the oldest `n - 100`), each tagged with its sender. -/
theorem message_history_spec
    (s : ServerState) (msgs : List (Ctx × String)) (roomId : String) (now : Nat)
    (room : Room)
    (hrid : roomId ≠ "")
    (hroom : mget s.rooms roomId = some room)
    (hfresh : room.messages = [])
    (hacc : ∀ cm ∈ msgs, cm.1.oderId ∈ room.members ∧ sanitizeMsg cm.2 ≠ "") :
    ∃ room', mget (runMessages s msgs roomId now).rooms roomId = some room' ∧
      room'.members = room.members ∧
      room'.messages =
        (msgs.map (fun cm => mkMsgData s.conns cm.1 roomId cm.2 now)).drop
          (msgs.length - 100) ∧
      room'.messages.length = min msgs.length 100 := by
  have h := runMessages_history msgs s roomId now room hrid hroom
    (by rw [hfresh]; simp) hacc
  rw [hfresh] at h
  refine ⟨_, h, rfl, ?_, ?_⟩
  · show last100 ([] ++ msgs.map fun cm => mkMsgData s.conns cm.1 roomId cm.2 now) = _
    rw [List.nil_append]
    unfold last100
    rw [List.length_map]
  · show (last100
        ([] ++ msgs.map fun cm => mkMsgData s.conns cm.1 roomId cm.2 now)).length = _
    rw [List.nil_append, length_last100, List.length_map]

/-- Witness for claim C8 at the reachable state `wA6`: the three messages
`hi` / `how are you` / `bye` leave exactly those three entries in order,
each tagged with its sender. -/
theorem message_history_spec_witness :
    (∃ room', mget (runMessages wA6.st msgs3 "private_AAAAAA_BBBBBB_0" 0).rooms
        "private_AAAAAA_BBBBBB_0" = some room' ∧
      room'.members = ["BBBBBB", "AAAAAA"] ∧
      room'.messages =
        (msgs3.map (fun cm =>
          mkMsgData wA6.st.conns cm.1 "private_AAAAAA_BBBBBB_0" cm.2 0)).drop
          (msgs3.length - 100) ∧
      room'.messages.length = min msgs3.length 100) ∧
    mget (runMessages wA6.st msgs3 "private_AAAAAA_BBBBBB_0" 0).rooms
        "private_AAAAAA_BBBBBB_0" =
      some ⟨["BBBBBB", "AAAAAA"],
        [⟨"private_AAAAAA_BBBBBB_0", "BBBBBB", "bob", "#ff6b6b", "hi", 0⟩,
         ⟨"private_AAAAAA_BBBBBB_0", "AAAAAA", "alice", "#00ff88", "how are you", 0⟩,
         ⟨"private_AAAAAA_BBBBBB_0", "BBBBBB", "bob", "#ff6b6b", "bye", 0⟩], 0⟩ :=
  ⟨message_history_spec wA6.st msgs3 "private_AAAAAA_BBBBBB_0" 0
      ⟨["BBBBBB", "AAAAAA"], [], 0⟩ (by decide) (by decide) rfl (by decide),
   by decide⟩

/-- Claim C4: a chat-invite from a connected player targeting `b` creates a
pending invite and notifies `b` exactly when `b` is connected, within the
proximity radius, and no existing room contains both players; when any
precondition fails, the sole effect is one error event to the inviter with
the corresponding reason, and the state is unchanged. -/
theorem chatInvite_spec
    (s : ServerState) (ctx : Ctx) (b : String) (now : Nat)
    (myC : PlayerData)
    (hme : mget s.conns ctx.oderId = some myC)
    (hb : b ≠ "") :
    (mget s.conns b = none →
      chatInviteH s ctx b now =
        (s, [(Target.sock ctx.socketId, SEvent.error "Player not found")])) ∧
    (∀ cb, mget s.conns b = some cb →
      PROXIMITY_RADIUS ^ 2 < getDistanceSq myC cb →
      chatInviteH s ctx b now =
        (s, [(Target.sock ctx.socketId,
              SEvent.error "Player is too far away to chat")])) ∧
    (∀ cb rid, mget s.conns b = some cb →
      getDistanceSq myC cb ≤ PROXIMITY_RADIUS ^ 2 →
      findExistingRoom s.rooms ctx.oderId b = some rid →
      chatInviteH s ctx b now =
        (s, [(Target.sock ctx.socketId,
              SEvent.error "Already chatting with this player")])) ∧
    (∀ cb, mget s.conns b = some cb →
      getDistanceSq myC cb ≤ PROXIMITY_RADIUS ^ 2 →
      findExistingRoom s.rooms ctx.oderId b = none →
      chatInviteH s ctx b now =
        ({ s with invites := mset s.invites (ctx.oderId ++ "_" ++ b)
                      ⟨ctx.oderId, b, ctx.username, myC.color, now⟩ },
         [(Target.sock cb.socketId,
           SEvent.chatInviteReceived ctx.oderId ctx.username myC.color),
          (Target.sock ctx.socketId, SEvent.chatInviteSent b cb.username)])) := by
  refine ⟨?_, ?_, ?_, ?_⟩
  · intro h
    unfold chatInviteH
    rw [if_neg hb, h]
  · intro cb hcb hdist
    unfold chatInviteH
    rw [if_neg hb, hcb, hme]
    dsimp only
    rw [if_pos hdist]
  · intro cb rid hcb hdist hroom
    unfold chatInviteH
    rw [if_neg hb, hcb, hme]
    dsimp only
    rw [if_neg (not_lt.mpr hdist), hroom]
  · intro cb hcb hdist hroom
    unfold chatInviteH
    rw [if_neg hb, hcb, hme]
    dsimp only
    rw [if_neg (not_lt.mpr hdist), hroom]

/-- Witness for claim C4 at the reachable state `wA3` (three connected
players, no rooms, no invites): an in-range invite from `AAAAAA` to
`BBBBBB` stores the pending invite and notifies exactly the target plus an
acknowledgement to the inviter. -/
theorem chatInvite_spec_witness :
    chatInviteH wA3.st ctxA "BBBBBB" 0 =
      ({ wA3.st with invites := mset wA3.st.invites ("AAAAAA" ++ "_" ++ "BBBBBB")
                        ⟨"AAAAAA", "BBBBBB", "alice", "#00ff88", 0⟩ },
       [(Target.sock "sockB",
         SEvent.chatInviteReceived "AAAAAA" "alice" "#00ff88"),
        (Target.sock "sockA", SEvent.chatInviteSent "BBBBBB" "bob")]) :=
  (chatInvite_spec wA3.st ctxA "BBBBBB" 0
      ⟨"sockA", "AAAAAA", "alice", "Male", "#00ff88", 500, 500, "down", false, none⟩
      (by decide) (by decide)).2.2.2
    ⟨"sockB", "BBBBBB", "bob", "Female", "#ff6b6b", 500, 520, "down", false, none⟩
    (by decide) (by decide) (by decide)

/-- Claim C5, amended: a private-message event with a non-empty text whose
sender is not one of the target room's members is rejected: the state is
unchanged (nothing stored, nothing relayed) and the sender alone receives
an error event.  (With an empty text the event is dropped silently before
the membership check — see the counterexample.) -/
theorem privateMessage_nonmember_rejected
    (s : ServerState) (ctx : Ctx) (roomId message : String) (now : Nat)
    (room : Room)
    (hrid : roomId ≠ "") (hmsg : message ≠ "")
    (hroom : mget s.rooms roomId = some room)
    (hmem : ctx.oderId ∉ room.members) :
    privateMessageH s ctx roomId message now =
      (s, [(Target.sock ctx.socketId, SEvent.error "Access denied")]) := by
  unfold privateMessageH
  rw [if_neg (by simp [hrid, hmsg]), hroom]
  dsimp only
  rw [if_pos (by simp [hmem])]

/-- Witness for the amended claim C5 at the reachable state `wA6`:
non-member `CCCCCC` sending "hello" into the room of `AAAAAA`/`BBBBBB`
gets an error and nothing else happens. -/
theorem privateMessage_nonmember_rejected_witness :
    privateMessageH wA6.st ctxC "private_AAAAAA_BBBBBB_0" "hello" 0 =
      (wA6.st, [(Target.sock "sockC", SEvent.error "Access denied")]) :=
  privateMessage_nonmember_rejected wA6.st ctxC "private_AAAAAA_BBBBBB_0" "hello" 0
    ⟨["BBBBBB", "AAAAAA"], [], 0⟩ (by decide) (by decide) (by decide) (by decide)

/-- Claim C6, amended: when a connected player disconnects, the handler
removes the player's connection entry, removes every pending invite naming
the player, and tears down the room referenced by the player's
`currentRoom` — notifying its other member (when connected) with the
disconnect-specific `chat-room-closed` reason and clearing that member's
`currentRoom`.  (A room listing the player as a member but not referenced
by the player's `currentRoom` is not cleaned up — see the
counterexample.) -/
theorem disconnect_spec (s : ServerState) (ctx : Ctx) (conn : PlayerData)
    (hme : mget s.conns ctx.oderId = some conn) :
    mget (disconnectH s ctx).1.conns ctx.oderId = none ∧
    (∀ p ∈ (disconnectH s ctx).1.invites,
      p.2.fromId ≠ ctx.oderId ∧ p.2.toId ≠ ctx.oderId) ∧
    (∀ rid, conn.currentRoom = some rid →
      mget (disconnectH s ctx).1.rooms rid = none) ∧
    (∀ rid room other oc, conn.currentRoom = some rid →
      mget s.rooms rid = some room →
      room.members.find? (fun id => id != ctx.oderId) = some other →
      mget s.conns other = some oc →
      (Target.sock oc.socketId,
        SEvent.chatRoomClosed rid (ctx.username ++ " disconnected")) ∈
          (disconnectH s ctx).2 ∧
      mget (disconnectH s ctx).1.conns other =
        some { oc with currentRoom := none }) := by
  have hinv : ∀ p ∈ s.invites.filter
      (fun p => ¬ (p.2.fromId = ctx.oderId ∨ p.2.toId = ctx.oderId)),
      p.2.fromId ≠ ctx.oderId ∧ p.2.toId ≠ ctx.oderId := by
    intro p hp
    have := List.of_mem_filter hp
    simp at this
    exact this
  unfold disconnectH
  rw [hme]
  dsimp only
  cases hcr : conn.currentRoom with
  | none =>
    refine ⟨mget_mdel_self _ _, hinv, ?_, ?_⟩
    · intro rid h
      exact Option.noConfusion h
    · intro rid room other oc h
      exact Option.noConfusion h
  | some rid0 =>
    dsimp only
    cases hr : mget s.rooms rid0 with
    | none =>
      dsimp only
      refine ⟨mget_mdel_self _ _, hinv, ?_, ?_⟩
      · intro rid h
        rw [Option.some.injEq] at h
        subst h
        exact hr
      · intro rid room other oc h hroom hfind hoc
        rw [Option.some.injEq] at h
        subst h
        rw [hroom] at hr
        exact Option.noConfusion hr
    | some room0 =>
      dsimp only
      cases hf : room0.members.find? (fun id => id != ctx.oderId) with
      | none =>
        dsimp only
        refine ⟨mget_mdel_self _ _, hinv, ?_, ?_⟩
        · intro rid h
          rw [Option.some.injEq] at h
          subst h
          exact mget_mdel_self _ _
        · intro rid room other oc h hroom hfind hoc
          rw [Option.some.injEq] at h
          subst h
          rw [hroom, Option.some.injEq] at hr
          subst hr
          rw [hfind] at hf
          exact Option.noConfusion hf
      | some other0 =>
        dsimp only
        have hother : other0 ≠ ctx.oderId := by
          have h2 := List.find?_some hf
          simpa using h2
        cases ho : mget s.conns other0 with
        | none =>
          dsimp only
          refine ⟨mget_mdel_self _ _, hinv, ?_, ?_⟩
          · intro rid h
            rw [Option.some.injEq] at h
            subst h
            exact mget_mdel_self _ _
          · intro rid room other oc h hroom hfind hoc
            rw [Option.some.injEq] at h
            subst h
            rw [hroom, Option.some.injEq] at hr
            subst hr
            rw [hfind, Option.some.injEq] at hf
            subst hf
            rw [hoc] at ho
            exact Option.noConfusion ho
        | some oc0 =>
          dsimp only
          refine ⟨mget_mdel_self _ _, hinv, ?_, ?_⟩
          · intro rid h
            rw [Option.some.injEq] at h
            subst h
            exact mget_mdel_self _ _
          · intro rid room other oc h hroom hfind hoc
            rw [Option.some.injEq] at h
            subst h
            rw [hroom, Option.some.injEq] at hr
            subst hr
            rw [hfind, Option.some.injEq] at hf
            subst hf
            rw [hoc, Option.some.injEq] at ho
            subst ho
            constructor
            · simp
            · rw [mget_mdel_ne _ hother, mget_mset_self]

/-- Witness for the amended claim C6 at the reachable state `wA7`: player
`AAAAAA` (whose `currentRoom` is the room with `CCCCCC`) disconnects; the
entry is removed, no invite names the player, the referenced room is
deleted, and `CCCCCC` is notified with the disconnect reason and has
`currentRoom` cleared. -/
theorem disconnect_spec_witness :
    mget (disconnectH wA7.st ctxA).1.conns "AAAAAA" = none ∧
    (mget (disconnectH wA7.st ctxA).1.rooms "private_AAAAAA_CCCCCC_0" = none ∧
      (Target.sock "sockC",
        SEvent.chatRoomClosed "private_AAAAAA_CCCCCC_0" "alice disconnected") ∈
          (disconnectH wA7.st ctxA).2) := by
  have h := disconnect_spec wA7.st ctxA
    ⟨"sockA", "AAAAAA", "alice", "Male", "#00ff88", 500, 500, "down", false,
      some "private_AAAAAA_CCCCCC_0"⟩ (by decide)
  refine ⟨h.1, h.2.2.1 "private_AAAAAA_CCCCCC_0" rfl, ?_⟩
  have h4 := h.2.2.2 "private_AAAAAA_CCCCCC_0"
    ⟨["CCCCCC", "AAAAAA"], [], 0⟩ "CCCCCC"
    ⟨"sockC", "CCCCCC", "carol", "Female", "#4ecdc4", 520, 500, "down", false,
      some "private_AAAAAA_CCCCCC_0"⟩
    rfl (by decide) (by decide) (by decide)
  exact h4.1

theorem roomsOk_connectH (s : ServerState) (ctx : Ctx) (g : String) (sx sy : Int)
    (h : RoomsOk s) : RoomsOk (connectH s ctx g sx sy).1 := h

theorem roomsOk_moveH (s : ServerState) (ctx : Ctx) (x y : Int) (d : String)
    (mv : Bool) (h : RoomsOk s) : RoomsOk (moveH s ctx x y d mv).1 := h

theorem roomsOk_chatInviteH (s : ServerState) (ctx : Ctx) (targetId : String)
    (now : Nat) (h : RoomsOk s) : RoomsOk (chatInviteH s ctx targetId now).1 := by
  unfold chatInviteH
  dsimp only
  repeat' split
  all_goals exact h

theorem roomsOk_chatInviteDeclineH (s : ServerState) (ctx : Ctx) (fromId : String)
    (h : RoomsOk s) : RoomsOk (chatInviteDeclineH s ctx fromId).1 := by
  unfold chatInviteDeclineH
  dsimp only
  repeat' split
  all_goals exact h

theorem roomsOk_chatInviteAcceptH (s : ServerState) (ctx : Ctx) (fromId : String)
    (now : Nat) (h : RoomsOk s) : RoomsOk (chatInviteAcceptH s ctx fromId now).1 := by
  unfold chatInviteAcceptH
  dsimp only
  repeat' split
  all_goals first
    | exact h
    | (intro p hp
       rcases mem_mset hp with rfl | hp2
       · rfl
       · exact h _ hp2)

theorem roomsOk_privateMessageH (s : ServerState) (ctx : Ctx)
    (roomId message : String) (now : Nat) (h : RoomsOk s) :
    RoomsOk (privateMessageH s ctx roomId message now).1 := by
  unfold privateMessageH
  dsimp only
  split
  · exact h
  · cases heq : mget s.rooms roomId with
    | none => exact h
    | some room =>
      dsimp only
      split
      · exact h
      · split
        · exact h
        · intro p hp
          rcases mem_mset hp with rfl | hp2
          · exact h (roomId, room) (mget_mem heq)
          · exact h _ hp2

theorem roomsOk_leaveChatH (s : ServerState) (ctx : Ctx) (roomId : String)
    (h : RoomsOk s) : RoomsOk (leaveChatH s ctx roomId).1 := by
  unfold leaveChatH
  dsimp only
  repeat' split
  all_goals first
    | exact h
    | (intro p hp
       exact h _ (mem_mdel hp))

theorem roomsOk_disconnectH (s : ServerState) (ctx : Ctx) (h : RoomsOk s) :
    RoomsOk (disconnectH s ctx).1 := by
  unfold disconnectH
  dsimp only
  repeat' split
  all_goals first
    | exact h
    | (intro p hp
       exact h _ (mem_mdel hp))

theorem roomsOk_step {w w' : World} (hstep : Step w w') (h : RoomsOk w.st) :
    RoomsOk w'.st := by
  cases hstep with
  | connect ctx gender sx sy dt hid hfresh heq =>
    subst heq
    exact roomsOk_connectH _ _ _ _ _ h
  | move ctx x y direction isMoving dt hctx heq =>
    subst heq
    exact roomsOk_moveH _ _ _ _ _ _ h
  | chatInvite ctx targetId dt hctx heq =>
    subst heq
    exact roomsOk_chatInviteH _ _ _ _ h
  | chatInviteAccept ctx fromId dt hctx heq =>
    subst heq
    exact roomsOk_chatInviteAcceptH _ _ _ _ h
  | chatInviteDecline ctx fromId dt hctx heq =>
    subst heq
    exact roomsOk_chatInviteDeclineH _ _ _ h
  | privateMessage ctx roomId message dt hctx heq =>
    subst heq
    exact roomsOk_privateMessageH _ _ _ _ _ h
  | leaveChat ctx roomId dt hctx heq =>
    subst heq
    exact roomsOk_leaveChatH _ _ _ h
  | disconnect ctx dt hctx heq =>
    subst heq
    exact roomsOk_disconnectH _ _ h

/-- Claim C2, amended: in every reachable state, every stored private room
has a member list of length exactly two (the accept handler always writes
a two-element list, and no handler edits a member list).  The two slots
need not hold distinct players, and a member's `currentRoom` need not
equal the room's id — see the counterexample. -/
theorem room_always_two_members {w : World} (hw : Reachable w) :
    ∀ p ∈ w.st.rooms, p.2.members.length = 2 := by
  unfold Reachable at hw
  induction hw with
  | refl =>
    intro p hp
    simp [initWorld] at hp
  | tail hab hbc ih => exact roomsOk_step hbc ih

/-- Witness for the amended claim C2 at the reachable state `wA7`. -/
theorem room_always_two_members_witness :
    (("private_AAAAAA_BBBBBB_0",
        (⟨["BBBBBB", "AAAAAA"], [], 0⟩ : Room)) : String × Room).2.members.length = 2 :=
  room_always_two_members reach_wA7 _ (by decide)

theorem distSq_nonneg (p q : PlayerData) : 0 ≤ getDistanceSq p q := by
  unfold getDistanceSq
  positivity

theorem toNat_distSq_cast (cp cq : PlayerData) :
    (((getDistanceSq cp cq).toNat : Nat) : ℝ) = ((getDistanceSq cp cq : ℤ) : ℝ) := by
  have h1 := Int.toNat_of_nonneg (distSq_nonneg cp cq)
  exact_mod_cast congrArg (fun z : ℤ => (z : ℝ)) h1

theorem roundSqrt_distSq (cp cq : PlayerData) :
    ((roundSqrt (getDistanceSq cp cq).toNat : Nat) : ℤ) =
      round (Real.sqrt ((getDistanceSq cp cq : ℤ) : ℝ)) := by
  rw [roundSqrt_eq_round_sqrt, toNat_distSq_cast]

/-- Claim C3: for a connected player `p` (well-formed map: entry keys match
the stored `oderId` fields and keys are unique, as maintained by the
server), the nearby list contains an entry for `q` iff `q` is a different,
connected player whose Euclidean distance from `p` is at most the
proximity radius; every entry carries the target's id, its stored
username, and the (rounded) Euclidean distance. -/
theorem nearby_spec
    (conns : List (String × PlayerData)) (p q : String) (cp : PlayerData)
    (hkeys : ∀ e ∈ conns, e.2.oderId = e.1)
    (hnd : (conns.map Prod.fst).Nodup)
    (hp : mget conns p = some cp) :
    ((∃ e ∈ getNearbyPlayers conns p, e.oderId = q) ↔
      (q ≠ p ∧ ∃ cq, mget conns q = some cq ∧
        Real.sqrt ((getDistanceSq cp cq : ℤ) : ℝ) ≤ ((PROXIMITY_RADIUS : ℤ) : ℝ))) ∧
    (∀ e ∈ getNearbyPlayers conns p, ∃ cq, mget conns e.oderId = some cq ∧
      e.username = cq.username ∧
      (e.distance : ℤ) = round (Real.sqrt ((getDistanceSq cp cq : ℤ) : ℝ))) := by
  have hlist : getNearbyPlayers conns p =
      (conns.filter fun pp =>
        pp.1 != p && decide (getDistanceSq cp pp.2 ≤ PROXIMITY_RADIUS ^ 2)).map
        fun pp =>
          { oderId := pp.2.oderId, username := pp.2.username,
            distance := roundSqrt (getDistanceSq cp pp.2).toNat } := by
    unfold getNearbyPlayers
    rw [hp]
  constructor
  · constructor
    · rintro ⟨e, he, heq⟩
      rw [hlist] at he
      obtain ⟨pp, hpf, rfl⟩ := List.mem_map.mp he
      obtain ⟨hppmem, hg⟩ := List.mem_filter.mp hpf
      rw [Bool.and_eq_true] at hg
      have hkey := hkeys pp hppmem
      have hq1 : pp.1 = q := by
        rw [← hkey]
        exact heq
      have hne : pp.1 ≠ p := by simpa using hg.1
      have hmem2 : (q, pp.2) ∈ conns := by
        rw [← hq1, Prod.mk.eta]
        exact hppmem
      refine ⟨by rw [← hq1]; exact hne, pp.2, mget_eq_of_nodup_mem hnd hmem2, ?_⟩
      exact (sqrt_le_iff_sq_le _).mpr (of_decide_eq_true hg.2)
    · rintro ⟨hqp, cq, hq, hdist⟩
      have hmemq := mget_mem hq
      refine ⟨⟨cq.oderId, cq.username, roundSqrt (getDistanceSq cp cq).toNat⟩,
        ?_, ?_⟩
      · rw [hlist]
        refine List.mem_map_of_mem _ (List.mem_filter.mpr ⟨hmemq, ?_⟩)
        rw [Bool.and_eq_true]
        refine ⟨by simpa using hqp, decide_eq_true ((sqrt_le_iff_sq_le _).mp hdist)⟩
      · exact hkeys (q, cq) hmemq
  · intro e he
    rw [hlist] at he
    obtain ⟨pp, hpf, rfl⟩ := List.mem_map.mp he
    obtain ⟨hppmem, hg⟩ := List.mem_filter.mp hpf
    have hkey := hkeys pp hppmem
    refine ⟨pp.2, ?_, rfl, ?_⟩
    · show mget conns pp.2.oderId = some pp.2
      rw [hkey]
      apply mget_eq_of_nodup_mem hnd
      rw [Prod.mk.eta]
      exact hppmem
    · exact roundSqrt_distSq cp pp.2

/-- Witness for claim C3 on `connsW`: the nearby list of `AAAAAA` contains
an entry for `BBBBBB`, twenty units away. -/
theorem nearby_spec_witness :
    ∃ e ∈ getNearbyPlayers connsW "AAAAAA", e.oderId = "BBBBBB" :=
  (nearby_spec connsW "AAAAAA" "BBBBBB"
      ⟨"sockA", "AAAAAA", "alice", "Male", "#00ff88", 500, 500, "down", false, none⟩
      (by decide) (by decide) (by decide)).1.mpr
    ⟨by decide,
     ⟨"sockB", "BBBBBB", "bob", "Female", "#ff6b6b", 500, 520, "down", false, none⟩,
     by decide, (sqrt_le_iff_sq_le _).mpr (by decide)⟩

end Playground
